import Mathlib

/-!
Shallow embedding of `elogrus` (`src/hook.go`), a logrus hook shipping log
records to an Elasticsearch backend, together with proofs of the spec claims.

Modelling conventions:
* `logrus.Level` is a six-constructor enum with the Go ordinals
  Panic(0) … Debug(5); `Level.str` mirrors logrus `Level.String()`.
* Go `interface` values stored in `logrus.Fields` are modelled by the
  inductive `Value`: a nil interface, a string, an integer, an error-typed
  value carrying its `Error()` message, or an opaque other value.
* `logrus.Fields` (a Go map) is modelled as an association list; `getField`
  is map lookup, `setKey` is map assignment at an already-present key
  (the only assignment the source performs).
* The impure index-name callable `func() string` is modelled as a pure
  function of an invocation counter `Nat → String`; every place the source
  writes `hook.index()` / `indexFunc()` consumes one counter tick, so the
  value the resolver returned at each particular invocation is visible.
* The Elasticsearch client is an oracle of pure functions
  (`IndexExists`, `CreateIndex`, and the `Index().…``.Do` write); effectful
  runs additionally return a trace of `BackendCall`s so that claims about
  which backend requests were issued can be stated.
* `context.WithCancel` is modelled by a `Ctx` flag plus an explicit
  `cancelCalled` result field recording whether the construction error
  paths invoked `cancel()`.
* The goroutine of `asyncFireFunc` is run inline but its error is dropped,
  matching the observable behaviour available to the caller.
-/

/-- Severity levels of logrus, ordinals Panic(0) … Debug(5). -/
inductive Level where
  | panic
  | fatal
  | error
  | warn
  | info
  | debug
deriving DecidableEq, Repr, Fintype

/-- The numeric ordinal of a level (`logrus.Level` is a `uint32`). -/
def Level.toNat : Level → Nat
  | .panic => 0
  | .fatal => 1
  | .error => 2
  | .warn => 3
  | .info => 4
  | .debug => 5

/-- Model of logrus `Level.String()` (external library collaborator). -/
def Level.str : Level → String
  | .panic => "panic"
  | .fatal => "fatal"
  | .error => "error"
  | .warn => "warning"
  | .info => "info"
  | .debug => "debug"

/-- A Go error value, identified by its `Error()` message. -/
structure GoError where
  message : String
deriving DecidableEq, Repr

/-- A Go `interface` value as it can occur in `logrus.Fields`. -/
inductive Value where
  | vnil
  | vstr (s : String)
  | vint (n : Int)
  | verr (e : GoError)
  | vother (tag : Nat)
deriving DecidableEq, Repr

/-- `logrus.Fields`: a map from field names to values (association list). -/
def Fields := List (String × Value)
deriving DecidableEq, Repr

/-- Map lookup on a field mapping (first binding wins, as in a Go map). -/
def getField : Fields → String → Option Value
  | [], _ => none
  | (k, v) :: rest, key => if k = key then some v else getField rest key

/-- Map assignment `data[key] = val` for a key already present in the map
(the source only assigns to the key it just looked up). -/
def setKey : Fields → String → Value → Fields
  | [], _, _ => []
  | (k, v) :: rest, key, val =>
      if k = key then (k, val) :: setKey rest key val
      else (k, v) :: setKey rest key val

/-- `logrus.ErrorKey`, the designated field name for error values. -/
def errorKey : String := "error"

/-- Model of Go `time.Time`: an absolute instant in Unix nanoseconds plus
the display offset of its location in seconds (external stdlib type). -/
structure GoTime where
  unixNanos : Int
  offsetSeconds : Int
deriving DecidableEq, Repr

/-- `time.Time.UTC()`: same instant, location switched to UTC. -/
def GoTime.utc (t : GoTime) : GoTime :=
  ⟨t.unixNanos, 0⟩

/-- Model of `time.Time.Format(time.RFC3339Nano)` (external stdlib): an
injective textual rendering of the displayed instant, preserving full
nanosecond precision.  The concrete calendar arithmetic of the Go
formatter is not part of this repository. -/
def GoTime.formatRFC3339Nano (t : GoTime) : String :=
  "rfc3339nano:" ++ toString t.unixNanos ++ "+" ++ toString t.offsetSeconds

/-- A `logrus.Entry`: severity, time, message and structured fields. -/
structure Entry where
  level : Level
  time : GoTime
  message : String
  data : Fields
deriving DecidableEq, Repr

/-- Result of the client `CreateIndex(...).Do(ctx)` call. -/
structure CreateIndexResult where
  acknowledged : Bool
deriving DecidableEq, Repr

/-- The hook-wide cancellation context (`context.WithCancel`). -/
structure Ctx where
  cancelled : Bool
deriving DecidableEq, Repr

/-- The wire document built by `defaultMessageCreator`: the anonymous Go
struct with fields `Host`, `@timestamp`, `Message`, `Data`, `Level`. -/
structure Document where
  Host : String
  Timestamp : String
  Message : String
  Data : Fields
  Level : String
deriving DecidableEq, Repr

/-- `IndexNameFunc`: the impure `func() string` as a function of the
invocation counter. -/
def IndexNameFunc := Nat → String

/-- The Elasticsearch client (`elastic.Client`, external collaborator)
as an oracle of pure functions.  `indexDo` is the
`Index().Index(name).Type(typ).BodyJson(body).Do(ctx)` write; the hook
discards the response and keeps only the error (`none` = success). -/
structure ElasticClient where
  indexExists : String → Except GoError Bool
  createIndex : String → Except GoError CreateIndexResult
  indexDo : String → String → Document → Ctx → Option GoError

/-- One backend request issued by the hook, with the backend's answer. -/
inductive BackendCall where
  | indexExists (name : String) (result : Except GoError Bool)
  | createIndex (name : String) (result : Except GoError CreateIndexResult)
  | write (indexName : String) (docType : String) (body : Document)
      (ctxCancelled : Bool) (result : Option GoError)

/-- The two fire functions stored in `ElasticHook.fireFunc`. -/
inductive FireMode where
  | sync
  | async
deriving DecidableEq, Repr

/-- `MessageCreatorFunc`.  In Go the creator receives the whole hook; the
default creator reads only the hook's host label, which is what is passed
here to break the type-level recursion between hook and creator. -/
def MessageCreatorFunc := Entry → String → Document

/-- The `ElasticHook` struct. -/
structure ElasticHook where
  client : ElasticClient
  host : String
  index : IndexNameFunc
  levels : List Level
  ctx : Ctx
  fireMode : FireMode
  messageCreator : MessageCreatorFunc

/-- The fixed candidate list iterated over in `newHookFuncAndFireFunc`. -/
def allLevels : List Level :=
  [.panic, .fatal, .error, .warn, .info, .debug]

/-- The enabled-severity list built by the construction loop:
keep each candidate `l` with `l <= level` (numeric `uint32` comparison). -/
def levelsFor (level : Level) : List Level :=
  allLevels.filter (fun l => l.toNat ≤ level.toNat)

/-- Model of Go `strings.ToUpper` (external stdlib): map every character
to its upper-case form. -/
def goToUpper (s : String) : String :=
  ⟨s.data.map Char.toUpper⟩

/-- `defaultMessageCreator`: the default Elasticsearch document builder. -/
def defaultMessageCreator : MessageCreatorFunc :=
  fun entry host =>
    let level := entry.level.str
    { Host := host
      Timestamp := (entry.time.utc).formatRFC3339Nano
      Message := entry.message
      Data := entry.data
      Level := goToUpper level }

/-- `hook.Levels()`. -/
def ElasticHook.Levels (hook : ElasticHook) : List Level :=
  hook.levels

/-- `hook.GetHost()`. -/
def ElasticHook.GetHost (hook : ElasticHook) : String :=
  hook.host

/-- `hook.SetMessageCreator(fn)`. -/
def ElasticHook.SetMessageCreator (hook : ElasticHook) (fn : MessageCreatorFunc) :
    ElasticHook :=
  { hook with messageCreator := fn }

/-- `hook.Cancel()`: cancels the shared context. -/
def ElasticHook.Cancel (hook : ElasticHook) : ElasticHook :=
  { hook with ctx := ⟨true⟩ }

/-- `ErrCannotCreateIndex`, the sentinel error for unacknowledged creates. -/
def ErrCannotCreateIndex : GoError :=
  ⟨"Cannot create index"⟩

/-- Observable outcome of `newHookFuncAndFireFunc`: the returned
`(hook, error)` pair, whether `cancel()` was invoked, the backend calls
issued, and the resolver invocation counter after construction. -/
structure ConstructResult where
  result : Except GoError ElasticHook
  cancelCalled : Bool
  calls : List BackendCall
  counter : Nat

/-- `newHookFuncAndFireFunc`: build the enabled-level list, allocate the
cancellable context, check index existence (resolver invocation `n`),
create the index if absent (resolver invocation `n+1`), and return the
hook — or an error, after calling `cancel()`. -/
def newHookFuncAndFireFunc (client : ElasticClient) (host : String)
    (level : Level) (indexFunc : IndexNameFunc) (fireMode : FireMode)
    (n : Nat) : ConstructResult :=
  let levels := levelsFor level
  let ctx : Ctx := ⟨false⟩
  let name0 := indexFunc n
  match client.indexExists name0 with
  | .error e =>
      ⟨.error e, true, [.indexExists name0 (.error e)], n + 1⟩
  | .ok ex =>
      if ex then
        ⟨.ok ⟨client, host, indexFunc, levels, ctx, fireMode,
            defaultMessageCreator⟩,
          false, [.indexExists name0 (.ok true)], n + 1⟩
      else
        let name1 := indexFunc (n + 1)
        match client.createIndex name1 with
        | .error e =>
            ⟨.error e, true,
              [.indexExists name0 (.ok false), .createIndex name1 (.error e)],
              n + 2⟩
        | .ok ci =>
            if ci.acknowledged then
              ⟨.ok ⟨client, host, indexFunc, levels, ctx, fireMode,
                  defaultMessageCreator⟩,
                false,
                [.indexExists name0 (.ok false), .createIndex name1 (.ok ci)],
                n + 2⟩
            else
              ⟨.error ErrCannotCreateIndex, true,
                [.indexExists name0 (.ok false), .createIndex name1 (.ok ci)],
                n + 2⟩

/-- `NewElasticHook`: synchronous hook with a constant index name. -/
def NewElasticHook (client : ElasticClient) (host : String) (level : Level)
    (index : String) (n : Nat) : ConstructResult :=
  newHookFuncAndFireFunc client host level (fun _ => index) .sync n

/-- `NewAsyncElasticHook`: asynchronous hook with a constant index name. -/
def NewAsyncElasticHook (client : ElasticClient) (host : String)
    (level : Level) (index : String) (n : Nat) : ConstructResult :=
  newHookFuncAndFireFunc client host level (fun _ => index) .async n

/-- The in-place error-field normalization at the top of `syncFireFunc`:
if the `error` field is present, non-nil and error-typed, overwrite it
with the error's message string. -/
def normalizeErrorField (data : Fields) : Fields :=
  match getField data errorKey with
  | some e =>
      if e ≠ Value.vnil then
        match e with
        | Value.verr err => setKey data errorKey (Value.vstr err.message)
        | _ => data
      else data
  | none => data

/-- Observable outcome of one fire function: the error returned to the
caller, the (possibly mutated) entry, the backend calls issued, and the
resolver invocation counter afterwards. -/
structure FireResult where
  err : Option GoError
  entry : Entry
  calls : List BackendCall
  counter : Nat

/-- `syncFireFunc`: normalize the error field in place, build the document
with the current message creator, resolve the index name afresh
(invocation `n`; the `indexName` argument is received but never used by
the source), and issue the write under the hook's context, returning the
backend's error. -/
def syncFireFunc (entry : Entry) (hook : ElasticHook) (indexName : String)
    (n : Nat) : FireResult :=
  let entry1 : Entry := { entry with data := normalizeErrorField entry.data }
  let msg := hook.messageCreator entry1 hook.host
  let name := hook.index n
  let res := hook.client.indexDo name "log" msg hook.ctx
  ⟨res, entry1, [.write name "log" msg hook.ctx.cancelled res], n + 1⟩

/-- `asyncFireFunc`: spawn `syncFireFunc` on a goroutine (run inline here),
passing a freshly resolved name (invocation `n`), and return nil to the
caller; the background error is discarded. -/
def asyncFireFunc (entry : Entry) (hook : ElasticHook) (indexName : String)
    (n : Nat) : FireResult :=
  let bg := syncFireFunc entry hook (hook.index n) (n + 1)
  ⟨none, bg.entry, bg.calls, bg.counter⟩

/-- `hook.Fire(entry)`: dispatch to the stored fire function, passing
`hook.index()` (resolver invocation `n`). -/
def ElasticHook.Fire (hook : ElasticHook) (entry : Entry) (n : Nat) :
    FireResult :=
  match hook.fireMode with
  | .sync => syncFireFunc entry hook (hook.index n) (n + 1)
  | .async => asyncFireFunc entry hook (hook.index n) (n + 1)

/-- The index names targeted by the write calls of a trace. -/
def writeTargets (calls : List BackendCall) : List String :=
  calls.filterMap (fun c =>
    match c with
    | .write name _ _ _ _ => some name
    | _ => none)

/-- Whether a trace contains a `CreateIndex` request. -/
def hasCreateCall (calls : List BackendCall) : Bool :=
  calls.any (fun c =>
    match c with
    | .createIndex _ _ => true
    | _ => false)

/-- A stub client whose index always exists and whose writes succeed. -/
def stubClient : ElasticClient :=
  ⟨fun _ => .ok true, fun _ => .ok ⟨true⟩, fun _ _ _ _ => none⟩

/-- A constant index resolver, as produced by `NewElasticHook`. -/
def constIndex : IndexNameFunc := fun _ => "logs"

/-- The hook `newHookFuncAndFireFunc stubClient "host" .warn constIndex
.sync 0` returns. -/
def stubHookWarn : ElasticHook :=
  ⟨stubClient, "host", constIndex, levelsFor .warn, ⟨false⟩, .sync,
    defaultMessageCreator⟩

theorem getField_setKey_ne (l : Fields) (k key : String) (val : Value)
    (hne : k ≠ key) : getField (setKey l key val) k = getField l k := by
  induction l with
  | nil => rfl
  | cons p rest ih =>
      obtain ⟨pk, pv⟩ := p
      by_cases hpk : pk = key
      · subst hpk
        simp [setKey, getField, Ne.symm hne, ih]
      · simp [setKey, getField, hpk, ih]

theorem getField_setKey_self (l : Fields) (key : String) (val : Value)
    (hsome : (getField l key).isSome) :
    getField (setKey l key val) key = some val := by
  induction l with
  | nil => simp [getField] at hsome
  | cons p rest ih =>
      obtain ⟨pk, pv⟩ := p
      by_cases hpk : pk = key
      · subst hpk
        simp [setKey, getField]
      · simp only [setKey, getField, if_neg hpk] at hsome ⊢
        exact ih hsome

/-- C1: the enabled-severity list computed at construction (and returned by
`Levels`) contains exactly the severities with ordinal at most the
threshold's ordinal, in the order Panic, Fatal, Error, Warn, Info, Debug;
for threshold Warn it is Panic–Warn, for Debug it is all six. -/
theorem levels_enabled_set_correct :
    (∀ t l : Level, l ∈ levelsFor t ↔ l.toNat ≤ t.toNat)
    ∧ levelsFor .warn = [.panic, .fatal, .error, .warn]
    ∧ levelsFor .debug = [.panic, .fatal, .error, .warn, .info, .debug]
    ∧ ∀ (c : ElasticClient) (h : String) (t : Level) (f : IndexNameFunc)
        (m : FireMode) (n : Nat) (hk : ElasticHook),
        (newHookFuncAndFireFunc c h t f m n).result = .ok hk →
        hk.Levels = levelsFor t := by
  refine ⟨by decide, by decide, by decide, ?_⟩
  intro c h t f m n hk hok
  simp only [newHookFuncAndFireFunc] at hok
  split at hok
  · simp at hok
  · split at hok
    · simp only [Except.ok.injEq] at hok
      subst hok
      rfl
    · split at hok
      · simp at hok
      · split at hok
        · simp only [Except.ok.injEq] at hok
          subst hok
          rfl
        · simp at hok

/-- Witness for C1 at a concrete construction. -/
theorem levels_enabled_set_correct_witness :
    (newHookFuncAndFireFunc stubClient "host" .warn constIndex .sync 0).result
        = .ok stubHookWarn
    ∧ stubHookWarn.Levels = levelsFor .warn :=
  ⟨rfl, levels_enabled_set_correct.2.2.2 stubClient "host" .warn constIndex
    .sync 0 stubHookWarn rfl⟩

/-- C2: a synchronous Fire call returns to the caller exactly the error the
backend write produced for that record (nil on success), and the single
write issued carries that same result. -/
theorem sync_fire_returns_backend_error
    (c : ElasticClient) (h : String) (f : IndexNameFunc) (lv : List Level)
    (ctx : Ctx) (mc : MessageCreatorFunc) (e : Entry) (n : Nat) :
    (ElasticHook.Fire ⟨c, h, f, lv, ctx, .sync, mc⟩ e n).err
        = c.indexDo (f (n + 1)) "log"
            (mc { e with data := normalizeErrorField e.data } h) ctx
    ∧ (ElasticHook.Fire ⟨c, h, f, lv, ctx, .sync, mc⟩ e n).calls
        = [.write (f (n + 1)) "log"
            (mc { e with data := normalizeErrorField e.data } h) ctx.cancelled
            ((ElasticHook.Fire ⟨c, h, f, lv, ctx, .sync, mc⟩ e n).err)] :=
  ⟨rfl, rfl⟩

/-- C3: an asynchronous Fire call returns nil to the caller whatever the
backend write's outcome; the background write still happens and its result
(recorded in the trace) is never surfaced to the caller. -/
theorem async_fire_returns_nil
    (c : ElasticClient) (h : String) (f : IndexNameFunc) (lv : List Level)
    (ctx : Ctx) (mc : MessageCreatorFunc) (e : Entry) (n : Nat) :
    (ElasticHook.Fire ⟨c, h, f, lv, ctx, .async, mc⟩ e n).err = none
    ∧ (ElasticHook.Fire ⟨c, h, f, lv, ctx, .async, mc⟩ e n).calls
        = [.write (f (n + 2)) "log"
            (mc { e with data := normalizeErrorField e.data } h) ctx.cancelled
            (c.indexDo (f (n + 2)) "log"
              (mc { e with data := normalizeErrorField e.data } h) ctx)] :=
  ⟨rfl, rfl⟩

/-- A date-style resolver whose output changes after its second
invocation. -/
def rotatingIndex : IndexNameFunc :=
  fun k => if k ≤ 1 then "idx-2020-01-01" else "idx-2020-01-02"

/-- C5: the resolver's result is never cached — each Fire call invokes it
afresh (the invocation counter strictly advances inside every call) and
the write of each call targets a name returned by an invocation made
during that very call; concretely, two sync Fire calls around a resolver
output change write to the two different names. -/
theorem resolver_not_cached :
    (∀ (c : ElasticClient) (h : String) (f : IndexNameFunc) (lv : List Level)
        (ctx : Ctx) (mc : MessageCreatorFunc) (e : Entry) (n : Nat),
        writeTargets (ElasticHook.Fire ⟨c, h, f, lv, ctx, .sync, mc⟩ e n).calls
            = [f (n + 1)]
        ∧ (ElasticHook.Fire ⟨c, h, f, lv, ctx, .sync, mc⟩ e n).counter = n + 2
        ∧ writeTargets
            (ElasticHook.Fire ⟨c, h, f, lv, ctx, .async, mc⟩ e n).calls
            = [f (n + 2)]
        ∧ (ElasticHook.Fire ⟨c, h, f, lv, ctx, .async, mc⟩ e n).counter
            = n + 3)
    ∧ (∀ (c : ElasticClient) (h : String) (lv : List Level) (ctx : Ctx)
        (mc : MessageCreatorFunc) (e1 e2 : Entry),
        writeTargets
          (ElasticHook.Fire ⟨c, h, rotatingIndex, lv, ctx, .sync, mc⟩ e1
            0).calls = ["idx-2020-01-01"]
        ∧ writeTargets
            (ElasticHook.Fire ⟨c, h, rotatingIndex, lv, ctx, .sync, mc⟩ e2
              (ElasticHook.Fire ⟨c, h, rotatingIndex, lv, ctx, .sync, mc⟩ e1
                0).counter).calls = ["idx-2020-01-02"]) :=
  ⟨fun _ _ _ _ _ _ _ _ => ⟨rfl, rfl, rfl, rfl⟩, fun _ _ _ _ _ _ _ => ⟨rfl, rfl⟩⟩

/-- C9: the default composer copies the hook's host label, formats the
record's UTC time with nanosecond precision, copies the message and the
structured fields, and uppercases the severity name; severity Info yields
Level "INFO". -/
theorem default_composer_fields (e : Entry) (h : String) :
    (defaultMessageCreator e h).Host = h
    ∧ (defaultMessageCreator e h).Timestamp = (e.time.utc).formatRFC3339Nano
    ∧ (defaultMessageCreator e h).Message = e.message
    ∧ (defaultMessageCreator e h).Data = e.data
    ∧ (defaultMessageCreator e h).Level = goToUpper e.level.str
    ∧ (e.level = .info → (defaultMessageCreator e h).Level = "INFO") := by
  refine ⟨rfl, rfl, rfl, rfl, rfl, ?_⟩
  intro hi
  show goToUpper e.level.str = "INFO"
  rw [hi]
  decide

/-- An Info-level entry with empty fields. -/
def infoEntry : Entry :=
  ⟨.info, ⟨0, 0⟩, "msg", []⟩

/-- Witness for C9 at a concrete Info-level entry. -/
theorem default_composer_fields_witness :
    (defaultMessageCreator infoEntry "myhost").Level = "INFO" :=
  (default_composer_fields infoEntry "myhost").2.2.2.2.2 rfl

theorem normalizeErrorField_err (data : Fields) (m : GoError)
    (herr : getField data errorKey = some (.verr m)) :
    normalizeErrorField data = setKey data errorKey (.vstr m.message) := by
  unfold normalizeErrorField
  rw [herr]
  rfl

theorem normalizeErrorField_other (data : Fields)
    (hno : ∀ m : GoError, getField data errorKey ≠ some (.verr m)) :
    normalizeErrorField data = data := by
  unfold normalizeErrorField
  cases hv : getField data errorKey with
  | none => rfl
  | some v =>
      cases v with
      | vnil => rfl
      | vstr s => rfl
      | vint k => rfl
      | verr m => exact absurd hv (hno m)
      | vother tag => rfl

theorem getField_normalizeErrorField_ne (data : Fields) (k : String)
    (hk : k ≠ errorKey) :
    getField (normalizeErrorField data) k = getField data k := by
  unfold normalizeErrorField
  cases hv : getField data errorKey with
  | none => rfl
  | some v =>
      cases v with
      | vnil => rfl
      | vstr s => rfl
      | vint i => rfl
      | verr m => exact getField_setKey_ne data k errorKey (.vstr m.message) hk
      | vother tag => rfl

/-- C4: when the record's designated error field holds an error value with
message `m`, the document written by the synchronous dispatch path under
the default composer carries the string `m` at its data entry `error`,
not the raw error value. -/
theorem error_field_stringified
    (c : ElasticClient) (h : String) (f : IndexNameFunc) (lv : List Level)
    (ctx : Ctx) (e : Entry) (n : Nat) (m : GoError)
    (herr : getField e.data errorKey = some (.verr m)) :
    ∃ body res,
      (ElasticHook.Fire ⟨c, h, f, lv, ctx, .sync, defaultMessageCreator⟩ e
          n).calls
        = [.write (f (n + 1)) "log" body ctx.cancelled res]
      ∧ getField body.Data errorKey = some (.vstr m.message)
      ∧ (∀ s : GoError, getField body.Data errorKey ≠ some (.verr s)) := by
  refine ⟨_, _, rfl, ?_, ?_⟩
  · show getField (normalizeErrorField e.data) errorKey
        = some (.vstr m.message)
    rw [normalizeErrorField_err e.data m herr]
    exact getField_setKey_self e.data errorKey _ (by rw [herr]; rfl)
  · intro s
    show getField (normalizeErrorField e.data) errorKey ≠ some (.verr s)
    rw [normalizeErrorField_err e.data m herr,
      getField_setKey_self e.data errorKey _ (by rw [herr]; rfl)]
    simp

/-- An entry whose error field holds an error value with message boom. -/
def boomEntry : Entry :=
  ⟨.info, ⟨0, 0⟩, "m", [(errorKey, .verr ⟨"boom"⟩), ("k", .vint 1)]⟩

/-- Witness for C4 at a concrete entry carrying an error value. -/
theorem error_field_stringified_witness :
    ∃ body res,
      (ElasticHook.Fire
          ⟨stubClient, "host", constIndex, levelsFor .info, ⟨false⟩, .sync,
            defaultMessageCreator⟩ boomEntry 0).calls
        = [.write (constIndex 1) "log" body false res]
      ∧ getField body.Data errorKey = some (.vstr "boom")
      ∧ (∀ s : GoError, getField body.Data errorKey ≠ some (.verr s)) :=
  error_field_stringified stubClient "host" constIndex (levelsFor .info)
    ⟨false⟩ boomEntry 0 ⟨"boom"⟩ rfl

/-- C10: Fire mutates the caller's record only at the designated error
entry of its field mapping — that entry is overwritten with the error's
message exactly when it holds an error-typed value (otherwise the mapping
is unchanged), and the record's severity, time, message and all other
field entries are unchanged. -/
theorem fire_mutates_only_error_field
    (c : ElasticClient) (h : String) (f : IndexNameFunc) (lv : List Level)
    (ctx : Ctx) (mode : FireMode) (mc : MessageCreatorFunc) (e : Entry)
    (n : Nat) :
    (ElasticHook.Fire ⟨c, h, f, lv, ctx, mode, mc⟩ e n).entry.level = e.level
    ∧ (ElasticHook.Fire ⟨c, h, f, lv, ctx, mode, mc⟩ e n).entry.time = e.time
    ∧ (ElasticHook.Fire ⟨c, h, f, lv, ctx, mode, mc⟩ e n).entry.message
        = e.message
    ∧ (∀ k, k ≠ errorKey →
        getField (ElasticHook.Fire ⟨c, h, f, lv, ctx, mode, mc⟩ e
            n).entry.data k
          = getField e.data k)
    ∧ (∀ m : GoError, getField e.data errorKey = some (.verr m) →
        getField (ElasticHook.Fire ⟨c, h, f, lv, ctx, mode, mc⟩ e
            n).entry.data errorKey
          = some (.vstr m.message))
    ∧ ((∀ m : GoError, getField e.data errorKey ≠ some (.verr m)) →
        (ElasticHook.Fire ⟨c, h, f, lv, ctx, mode, mc⟩ e n).entry.data
          = e.data) := by
  have hdata : (ElasticHook.Fire ⟨c, h, f, lv, ctx, mode, mc⟩ e n).entry.data
      = normalizeErrorField e.data := by
    cases mode <;> rfl
  have hlv : (ElasticHook.Fire ⟨c, h, f, lv, ctx, mode, mc⟩ e n).entry.level
      = e.level := by
    cases mode <;> rfl
  have htm : (ElasticHook.Fire ⟨c, h, f, lv, ctx, mode, mc⟩ e n).entry.time
      = e.time := by
    cases mode <;> rfl
  have hmsg : (ElasticHook.Fire ⟨c, h, f, lv, ctx, mode, mc⟩ e
      n).entry.message = e.message := by
    cases mode <;> rfl
  refine ⟨hlv, htm, hmsg, ?_, ?_, ?_⟩
  · intro k hk
    rw [hdata]
    exact getField_normalizeErrorField_ne e.data k hk
  · intro m hm
    rw [hdata, normalizeErrorField_err e.data m hm]
    exact getField_setKey_self e.data errorKey _ (by rw [hm]; rfl)
  · intro hno
    rw [hdata]
    exact normalizeErrorField_other e.data hno

/-- Witness for C10 at a concrete record with an error value and a second
unrelated field. -/
theorem fire_mutates_only_error_field_witness :
    getField
        (ElasticHook.Fire
            ⟨stubClient, "host", constIndex, levelsFor .info, ⟨false⟩, .sync,
              defaultMessageCreator⟩ boomEntry 0).entry.data errorKey
      = some (.vstr "boom")
    ∧ getField
        (ElasticHook.Fire
            ⟨stubClient, "host", constIndex, levelsFor .info, ⟨false⟩, .sync,
              defaultMessageCreator⟩ boomEntry 0).entry.data "k"
      = getField boomEntry.data "k" :=
  ⟨(fire_mutates_only_error_field stubClient "host" constIndex
      (levelsFor .info) ⟨false⟩ .sync defaultMessageCreator boomEntry
      0).2.2.2.2.1 ⟨"boom"⟩ rfl,
    (fire_mutates_only_error_field stubClient "host" constIndex
      (levelsFor .info) ⟨false⟩ .sync defaultMessageCreator boomEntry
      0).2.2.2.1 "k" (by decide)⟩

/-- C6: when the existence query reports the index absent and the create
request succeeds but is not acknowledged, construction fails with the
sentinel `ErrCannotCreateIndex` (cancelling the allocated token) and
returns no hook. -/
theorem unacknowledged_create_fails
    (c : ElasticClient) (h : String) (lv : Level) (f : IndexNameFunc)
    (m : FireMode) (n : Nat)
    (hex : c.indexExists (f n) = .ok false)
    (hcr : c.createIndex (f (n + 1)) = .ok ⟨false⟩) :
    (newHookFuncAndFireFunc c h lv f m n).result = .error ErrCannotCreateIndex
    ∧ (newHookFuncAndFireFunc c h lv f m n).cancelCalled = true := by
  simp [newHookFuncAndFireFunc, hex, hcr]

/-- A client reporting the index absent and replying to creates without
acknowledgement. -/
def unackClient : ElasticClient :=
  ⟨fun _ => .ok false, fun _ => .ok ⟨false⟩, fun _ _ _ _ => none⟩

/-- Witness for C6 at a concrete unacknowledging client. -/
theorem unacknowledged_create_fails_witness :
    (newHookFuncAndFireFunc unackClient "host" .info constIndex .sync
        0).result = .error ErrCannotCreateIndex
    ∧ (newHookFuncAndFireFunc unackClient "host" .info constIndex .sync
        0).cancelCalled = true :=
  unacknowledged_create_fails unackClient "host" .info constIndex .sync 0
    rfl rfl

/-- C7: a backend error from the existence query or the create request is
propagated verbatim as the construction result, and every construction
failure (backend error or unacknowledged create) cancels the token
allocated for the would-be hook. -/
theorem construction_error_propagation
    (c : ElasticClient) (h : String) (lv : Level) (f : IndexNameFunc)
    (m : FireMode) (n : Nat) :
    (∀ e : GoError, c.indexExists (f n) = .error e →
        (newHookFuncAndFireFunc c h lv f m n).result = .error e)
    ∧ (∀ e : GoError, c.indexExists (f n) = .ok false →
        c.createIndex (f (n + 1)) = .error e →
        (newHookFuncAndFireFunc c h lv f m n).result = .error e)
    ∧ (∀ e : GoError, (newHookFuncAndFireFunc c h lv f m n).result = .error e →
        (newHookFuncAndFireFunc c h lv f m n).cancelCalled = true) := by
  refine ⟨?_, ?_, ?_⟩
  · intro e he
    simp [newHookFuncAndFireFunc, he]
  · intro e he hc
    simp [newHookFuncAndFireFunc, he, hc]
  · intro e hres
    cases hc : c.indexExists (f n) with
    | error e1 => simp [newHookFuncAndFireFunc, hc]
    | ok ex =>
        cases ex with
        | true => simp [newHookFuncAndFireFunc, hc] at hres
        | false =>
            cases hcr : c.createIndex (f (n + 1)) with
            | error e2 => simp [newHookFuncAndFireFunc, hc, hcr]
            | ok ci =>
                cases hack : ci.acknowledged with
                | true =>
                    simp [newHookFuncAndFireFunc, hc, hcr, hack] at hres
                | false => simp [newHookFuncAndFireFunc, hc, hcr, hack]

/-- A client whose existence query fails with a backend error. -/
def downClient : ElasticClient :=
  ⟨fun _ => .error ⟨"backend down"⟩, fun _ => .ok ⟨true⟩,
    fun _ _ _ _ => none⟩

/-- Witness for C7 at a concrete erroring client. -/
theorem construction_error_propagation_witness :
    (newHookFuncAndFireFunc downClient "host" .info constIndex .sync
        0).result = .error ⟨"backend down"⟩
    ∧ (newHookFuncAndFireFunc downClient "host" .info constIndex .sync
        0).cancelCalled = true :=
  ⟨(construction_error_propagation downClient "host" .info constIndex .sync
      0).1 ⟨"backend down"⟩ rfl,
    (construction_error_propagation downClient "host" .info constIndex .sync
      0).2.2 ⟨"backend down"⟩
      ((construction_error_propagation downClient "host" .info constIndex
        .sync 0).1 ⟨"backend down"⟩ rfl)⟩

/-- C8: when the existence query reports the index already present,
construction issues no create request, succeeds with a ready hook given
by the construction arguments, and does not cancel the token. -/
theorem existing_index_no_create
    (c : ElasticClient) (h : String) (lv : Level) (f : IndexNameFunc)
    (m : FireMode) (n : Nat)
    (hex : c.indexExists (f n) = .ok true) :
    (newHookFuncAndFireFunc c h lv f m n).calls
        = [.indexExists (f n) (.ok true)]
    ∧ hasCreateCall (newHookFuncAndFireFunc c h lv f m n).calls = false
    ∧ (newHookFuncAndFireFunc c h lv f m n).result
        = .ok ⟨c, h, f, levelsFor lv, ⟨false⟩, m, defaultMessageCreator⟩
    ∧ (newHookFuncAndFireFunc c h lv f m n).cancelCalled = false := by
  simp [newHookFuncAndFireFunc, hex, hasCreateCall]

/-- Witness for C8 at a concrete client reporting the index present. -/
theorem existing_index_no_create_witness :
    (newHookFuncAndFireFunc stubClient "host" .debug constIndex .async
        0).calls = [.indexExists (constIndex 0) (.ok true)]
    ∧ hasCreateCall (newHookFuncAndFireFunc stubClient "host" .debug
        constIndex .async 0).calls = false
    ∧ (newHookFuncAndFireFunc stubClient "host" .debug constIndex .async
        0).result
        = .ok ⟨stubClient, "host", constIndex, levelsFor .debug, ⟨false⟩,
            .async, defaultMessageCreator⟩
    ∧ (newHookFuncAndFireFunc stubClient "host" .debug constIndex .async
        0).cancelCalled = false :=
  existing_index_no_create stubClient "host" .debug constIndex .async 0 rfl
